import Mathlib

/-!
# mixgen launcher (`src/mixgen/main.go`)

A shallow embedding of `func main()` of the mixgen command-line entry point.

```go
func main() {
	rootCmd := cmd.GetRootCmd(os.Args[1:], shared.Printf, shared.Fatalf)
	rootCmd.AddCommand(version.CobraCommand())
	if err := rootCmd.Execute(); err != nil {
		os.Exit(-1)
	}
}
```

`main` is embedded as a function of the process argument vector and of the
four procedures it calls in other packages (`cmd.GetRootCmd`,
`version.CobraCommand`, `(*cobra.Command).AddCommand`,
`(*cobra.Command).Execute`).  Those procedures are parameters: each of them
either returns a value or does not return (it panicked, or ended the process
itself, for instance through the fatal output function).  A run of `main` is
the list of calls it made, in order, together with the way the run ended.
-/

namespace Mixgen

/-! ## Definitions -/

/-- The two output functions of package `shared` that `main` names. -/
inductive FormatFn where
  | Printf
  | Fatalf
  deriving DecidableEq, Repr

/-- Result of a call into another package: the call returned `a`, or it did
not return (panic or process termination inside the callee). -/
inductive Call (α : Type) where
  | returned (a : α)
  | aborted
  deriving DecidableEq, Repr

/-- The procedures of other packages that `main` calls.  `Cmd` is the state of
a `*cobra.Command`; `AddCommand root child` yields the state of the receiver
after the in-place update; `Execute root` yields the returned `error`
(`none` is `nil`). -/
structure Collaborators (Cmd Err : Type) where
  GetRootCmd : List String → FormatFn → FormatFn → Call Cmd
  CobraCommand : Call Cmd
  AddCommand : Cmd → Cmd → Call Cmd
  Execute : Cmd → Call (Option Err)

/-- One step of a run of `main`: a call into another package with its
arguments and its result, or the request `os.Exit(code)`. -/
inductive Event (Cmd Err : Type) where
  | GetRootCmd (args : List String) (printf fatalf : FormatFn) (res : Call Cmd)
  | CobraCommand (res : Call Cmd)
  | AddCommand (root child : Cmd) (res : Call Cmd)
  | Execute (root : Cmd) (res : Call (Option Err))
  | Exit (code : Int)
  deriving DecidableEq, Repr

/-- How a run of `main` ends: `main` returned, `main` called `os.Exit code`,
`main` itself panicked (a run-time error of its own code), or a callee did not
return. -/
inductive Outcome where
  | returned
  | exited (code : Int)
  | panicked
  | aborted
  deriving DecidableEq, Repr

/-- A run: the calls made, in order, and the way the run ended. -/
structure Run (Cmd Err : Type) where
  trace : List (Event Cmd Err)
  outcome : Outcome
  deriving DecidableEq, Repr

/-- A computation of the launcher: the events logged so far and either the
outcome that stopped the run or the value to continue with. -/
structure Launcher (Cmd Err α : Type) where
  log : List (Event Cmd Err)
  next : Outcome ⊕ α

/-- Sequencing: a stopped computation stays stopped, otherwise the events of
the second part follow those of the first. -/
def Launcher.andThen {Cmd Err α β : Type} (m : Launcher Cmd Err α)
    (f : α → Launcher Cmd Err β) : Launcher Cmd Err β :=
  match m.next with
  | .inl o => ⟨m.log, .inl o⟩
  | .inr a => ⟨m.log ++ (f a).log, (f a).next⟩

instance {Cmd Err : Type} : Monad (Launcher Cmd Err) where
  pure a := ⟨[], .inr a⟩
  bind m f := m.andThen f

/-- Log one event and continue with `a`. -/
def emit {Cmd Err α : Type} (e : Event Cmd Err) (a : α) : Launcher Cmd Err α :=
  ⟨[e], .inr a⟩

/-- Log one event and stop with outcome `o`. -/
def halt {Cmd Err α : Type} (e : Event Cmd Err) (o : Outcome) : Launcher Cmd Err α :=
  ⟨[e], .inl o⟩

/-- The Go slice expression `s[low:]`: a run-time panic when `low > len(s)`,
otherwise the elements from index `low` on. -/
def sliceFrom {α : Type} (s : List α) (low : Nat) : Option (List α) :=
  if low ≤ s.length then some (s.drop low) else none

/-- Evaluate `os.Args[1:]` inside `main`: a panic of `main` when it is out of
range. -/
def sliceArgs {Cmd Err : Type} (osArgs : List String) : Launcher Cmd Err (List String) :=
  match sliceFrom osArgs 1 with
  | some args => ⟨[], .inr args⟩
  | none => ⟨[], .inl .panicked⟩

/-- Lift a call result: log the event; continue when the callee returned. -/
def call {Cmd Err α : Type} (e : Event Cmd Err) (res : Call α) : Launcher Cmd Err α :=
  match res with
  | .returned a => emit e a
  | .aborted => halt e .aborted

/-- The call `os.Exit(code)`: it never returns. -/
def osExit {Cmd Err : Type} (code : Int) : Launcher Cmd Err Unit :=
  halt (.Exit code) (.exited code)

/-- Close a computation into a run: falling off the end of `main` is a normal
return. -/
def Launcher.finish {Cmd Err : Type} (m : Launcher Cmd Err Unit) : Run Cmd Err :=
  match m.next with
  | .inl o => ⟨m.log, o⟩
  | .inr _ => ⟨m.log, .returned⟩

/-- The body of `func main()`, statement by statement. -/
def mainBody {Cmd Err : Type} (K : Collaborators Cmd Err) (osArgs : List String) :
    Launcher Cmd Err Unit := do
  -- rootCmd := cmd.GetRootCmd(os.Args[1:], shared.Printf, shared.Fatalf)
  let args ← sliceArgs osArgs
  let rootCmd ← call (.GetRootCmd args .Printf .Fatalf (K.GetRootCmd args .Printf .Fatalf))
    (K.GetRootCmd args .Printf .Fatalf)
  -- rootCmd.AddCommand(version.CobraCommand())
  let v ← call (.CobraCommand K.CobraCommand) K.CobraCommand
  let rootCmd ← call (.AddCommand rootCmd v (K.AddCommand rootCmd v)) (K.AddCommand rootCmd v)
  -- if err := rootCmd.Execute(); err != nil { os.Exit(-1) }
  let err ← call (.Execute rootCmd (K.Execute rootCmd)) (K.Execute rootCmd)
  if err.isSome then
    osExit (-1)

/-- A run of `func main()` with process argument vector `osArgs`. -/
def main {Cmd Err : Type} (K : Collaborators Cmd Err) (osArgs : List String) : Run Cmd Err :=
  (mainBody K osArgs).finish

/-- The status a parent process observes for an exit code: its low 8 bits. -/
def waitStatus (code : Int) : Int := code % 2 ^ 8

/-- The process status of a run: 0 after a normal return of `main`, the low
8 bits of the code after `os.Exit`, 2 after a panic of `main` (the status the
Go runtime exits with); unknown here when a callee ended the run. -/
def Run.status {Cmd Err : Type} (r : Run Cmd Err) : Option Int :=
  match r.outcome with
  | .returned => some 0
  | .exited code => some (waitStatus code)
  | .panicked => some 2
  | .aborted => none

/-- The termination requests of a run, in order. -/
def exitCodes {Cmd Err : Type} : List (Event Cmd Err) → List Int
  | [] => []
  | .Exit c :: es => c :: exitCodes es
  | _ :: es => exitCodes es

/-- A test double: commands are lists of child names, `Execute` fails exactly
when the flag is set. -/
def stub (fails : Bool) : Collaborators (List String) String where
  GetRootCmd := fun _ _ _ => .returned ["adapter", "template"]
  CobraCommand := .returned ["version"]
  AddCommand := fun root child => .returned (root ++ child)
  Execute := fun _ => .returned (if fails then some "boom" else none)

/-- Modelled from the spec: the command-tree handle returned by the root-command
builder (the builder and the command library are not part of the sources).
The spec describes it as "a hierarchical set of named, executable operations
(root command plus subcommands) resolved from argument tokens": a command has
a name, the argument sequence it was built for, its own behaviour on the
remaining arguments (`none` is success, `some msg` is failure) and its child
set, kept in registration order. -/
structure Command where
  name : String
  args : List String
  run : List String → Option String
  children : List Command

/-- Modelled from the spec: "Register version subcommand: attaches a
self-describing subcommand ... to the root command's child set. Must not alter
existing subcommands; side effect is purely additive."  (`AddCommand` of the
command library, not part of the sources.) -/
def Command.AddCommand (root child : Command) : Command :=
  { root with children := root.children ++ [child] }

/-- Modelled from the spec: resolution of an argument token to a subcommand of
the root ("argument matching performed inside the command-tree handle", not
part of the sources): the children are tried in registration order and the
first one carrying the name is selected. -/
def Command.resolve (root : Command) (tok : String) : Option Command :=
  root.children.find? (fun c => c.name == tok)

/-- Modelled from the spec: "Execute: runs the selected subcommand (determined
by argument matching performed inside the command-tree handle). Returns a
success/failure result."  (`Execute` of the command library, not part of the
sources.)  Following the scenarios of the spec: with no argument the root runs
its own behaviour, a first token that resolves to a child runs that child on
the remaining arguments, a first token naming an unknown subcommand is a
failure. -/
def Command.Execute (root : Command) : Option String :=
  match root.args with
  | [] => root.run []
  | tok :: rest =>
    match root.resolve tok with
    | some c => c.run rest
    | none => some ("unknown command " ++ tok)

/-- Modelled from the spec: the root-command builder ("takes the raw argument
sequence ... Constructs and returns a command-tree handle"; the function itself
is not part of the sources).  `tree` is the tree the builder composes for an
argument sequence; the handle is executed against that sequence. -/
def specGetRootCmd (tree : List String → Command) (args : List String) : Command :=
  { tree args with args := args }

/-- Modelled from the spec: the collaborators of `main` as the spec describes
them (none of them is part of the sources): each call returns; `version` is
the subcommand produced by the version-subcommand factory. -/
def specCollaborators (tree : List String → Command) (version : Command) :
    Collaborators Command String where
  GetRootCmd := fun args _ _ => .returned (specGetRootCmd tree args)
  CobraCommand := .returned version
  AddCommand := fun root child => .returned (root.AddCommand child)
  Execute := fun root => .returned root.Execute

/-- A leaf command that succeeds. -/
def leaf (name : String) : Command :=
  { name := name, args := [], run := fun _ => none, children := [] }

/-- A sample tree: a root with the children "adapter", "template" and an own
"version" child whose execution fails. -/
def sampleTree (_ : List String) : Command :=
  { name := "mixgen", args := [], run := fun _ => none,
    children := [leaf "adapter", leaf "template",
      { name := "version", args := [], run := fun _ => some "old", children := [] }] }

/-- The seven ways a run of `main` can go. -/
inductive MainShape {Cmd Err : Type} (K : Collaborators Cmd Err) : List String → Run Cmd Err → Prop where
  | noArgs : MainShape K [] ⟨[], .panicked⟩
  | buildAborted (p : String) (args : List String)
      (h1 : K.GetRootCmd args .Printf .Fatalf = .aborted) :
      MainShape K (p :: args) ⟨[.GetRootCmd args .Printf .Fatalf .aborted], .aborted⟩
  | factoryAborted (p : String) (args : List String) (root : Cmd)
      (h1 : K.GetRootCmd args .Printf .Fatalf = .returned root)
      (h2 : K.CobraCommand = .aborted) :
      MainShape K (p :: args)
        ⟨[.GetRootCmd args .Printf .Fatalf (.returned root), .CobraCommand .aborted], .aborted⟩
  | registerAborted (p : String) (args : List String) (root v : Cmd)
      (h1 : K.GetRootCmd args .Printf .Fatalf = .returned root)
      (h2 : K.CobraCommand = .returned v)
      (h3 : K.AddCommand root v = .aborted) :
      MainShape K (p :: args)
        ⟨[.GetRootCmd args .Printf .Fatalf (.returned root), .CobraCommand (.returned v),
          .AddCommand root v .aborted], .aborted⟩
  | executeAborted (p : String) (args : List String) (root v root1 : Cmd)
      (h1 : K.GetRootCmd args .Printf .Fatalf = .returned root)
      (h2 : K.CobraCommand = .returned v)
      (h3 : K.AddCommand root v = .returned root1)
      (h4 : K.Execute root1 = .aborted) :
      MainShape K (p :: args)
        ⟨[.GetRootCmd args .Printf .Fatalf (.returned root), .CobraCommand (.returned v),
          .AddCommand root v (.returned root1), .Execute root1 .aborted], .aborted⟩
  | success (p : String) (args : List String) (root v root1 : Cmd)
      (h1 : K.GetRootCmd args .Printf .Fatalf = .returned root)
      (h2 : K.CobraCommand = .returned v)
      (h3 : K.AddCommand root v = .returned root1)
      (h4 : K.Execute root1 = .returned none) :
      MainShape K (p :: args)
        ⟨[.GetRootCmd args .Printf .Fatalf (.returned root), .CobraCommand (.returned v),
          .AddCommand root v (.returned root1), .Execute root1 (.returned none)], .returned⟩
  | failure (p : String) (args : List String) (root v root1 : Cmd) (e : Err)
      (h1 : K.GetRootCmd args .Printf .Fatalf = .returned root)
      (h2 : K.CobraCommand = .returned v)
      (h3 : K.AddCommand root v = .returned root1)
      (h4 : K.Execute root1 = .returned (some e)) :
      MainShape K (p :: args)
        ⟨[.GetRootCmd args .Printf .Fatalf (.returned root), .CobraCommand (.returned v),
          .AddCommand root v (.returned root1), .Execute root1 (.returned (some e)),
          .Exit (-1)], .exited (-1)⟩

/-- A second failing test double: its error is a number and depends on the
command. -/
def stubCode : Collaborators Nat Nat where
  GetRootCmd := fun args _ _ => .returned args.length
  CobraCommand := .returned 1
  AddCommand := fun root child => .returned (root + child)
  Execute := fun root => .returned (some (root + 40))

/-- The build step of a run completed: the builder was called and returned. -/
def buildCompleted {Cmd Err : Type} (r : Run Cmd Err) : Bool :=
  r.trace.any fun e =>
    match e with
    | .GetRootCmd _ _ _ (.returned _) => true
    | _ => false

/-- Position of a step in the body of `main`. -/
def Event.stage {Cmd Err : Type} : Event Cmd Err → Nat
  | .GetRootCmd _ _ _ _ => 0
  | .CobraCommand _ => 1
  | .AddCommand _ _ _ => 2
  | .Execute _ _ => 3
  | .Exit _ => 4

/-- How often the step at position `n` occurs in a trace. -/
def countStage {Cmd Err : Type} (n : Nat) (t : List (Event Cmd Err)) : Nat :=
  (t.map Event.stage).count n

/-- The steps of a trace follow the order of the body of `main` and none is
repeated. -/
def stagesIncrease {Cmd Err : Type} (t : List (Event Cmd Err)) : Prop :=
  (t.map Event.stage).Pairwise (· < ·)

/-- Each step works on the result of the steps before it: `AddCommand` is
called on the root the builder returned with the command the version factory
returned, `Execute` on the root as `AddCommand` left it. -/
def wellLinked {Cmd Err : Type} (t : List (Event Cmd Err)) : Prop :=
  (∀ root1 res, Event.Execute root1 res ∈ t →
    ∃ root v, Event.AddCommand root v (.returned root1) ∈ t) ∧
  (∀ root v res, Event.AddCommand root v res ∈ t →
    (∃ args pf ff, Event.GetRootCmd args pf ff (.returned root) ∈ t) ∧
    Event.CobraCommand (.returned v) ∈ t)

/-- A termination request is the last step of the trace and directly follows
an `Execute` that returned a non-nil error. -/
def exitOnlyAfterFailure {Cmd Err : Type} (t : List (Event Cmd Err)) : Prop :=
  ∀ c, c ∈ exitCodes t →
    ∃ pre root e, t = pre ++ [Event.Execute root (.returned (some e)), Event.Exit c]

/-- The run C9 describes: build, registration and execution happen exactly
once each, in this order and each on the result of the one before, and a
termination request is made at most once, only after `Execute` returned a
failure. -/
def LinearRun {Cmd Err : Type} (r : Run Cmd Err) : Prop :=
  countStage 0 r.trace = 1 ∧ countStage 2 r.trace = 1 ∧ countStage 3 r.trace = 1 ∧
  stagesIncrease r.trace ∧ wellLinked r.trace ∧
  (exitCodes r.trace).length ≤ 1 ∧ exitOnlyAfterFailure r.trace

/-! ## Theorems -/

/-- A succeeding run of the test double, step by step. -/
theorem sample_run_success : main (stub false) ["mixgen", "version"] =
    ⟨[.GetRootCmd ["version"] .Printf .Fatalf (.returned ["adapter", "template"]),
      .CobraCommand (.returned ["version"]),
      .AddCommand ["adapter", "template"] ["version"] (.returned ["adapter", "template", "version"]),
      .Execute ["adapter", "template", "version"] (.returned none)], .returned⟩ := by
  decide

/-- A failing run of the test double, step by step. -/
theorem sample_run_failure : main (stub true) ["mixgen", "nope"] =
    ⟨[.GetRootCmd ["nope"] .Printf .Fatalf (.returned ["adapter", "template"]),
      .CobraCommand (.returned ["version"]),
      .AddCommand ["adapter", "template"] ["version"] (.returned ["adapter", "template", "version"]),
      .Execute ["adapter", "template", "version"] (.returned (some "boom")),
      .Exit (-1)], .exited (-1)⟩ := by
  decide

/-- A run without any process argument: `os.Args[1:]` panics at once. -/
theorem sample_run_no_args : main (stub true) [] = ⟨[], .panicked⟩ := by decide

/-- Runs on the sample tree: no argument, a known child, the older "version"
child (which fails) and an unknown subcommand. -/
theorem sample_spec_runs :
    (main (specCollaborators sampleTree (leaf "version")) ["mixgen"]).outcome = .returned ∧
    (main (specCollaborators sampleTree (leaf "version")) ["mixgen", "adapter"]).outcome = .returned ∧
    (main (specCollaborators sampleTree (leaf "version")) ["mixgen", "version"]).outcome = .exited (-1) ∧
    (main (specCollaborators sampleTree (leaf "version")) ["mixgen", "nope"]).outcome = .exited (-1) := by
  refine ⟨?_, ?_, ?_, ?_⟩ <;> decide

/-- Every run of `main` has one of the seven shapes. -/
theorem main_shape {Cmd Err : Type} (K : Collaborators Cmd Err) (osArgs : List String) :
    MainShape K osArgs (main K osArgs) := by
  rcases osArgs with _ | ⟨p, args⟩
  · exact MainShape.noArgs
  · cases h1 : K.GetRootCmd args .Printf .Fatalf with
    | aborted =>
      have run_eq : main K (p :: args) =
          ⟨[.GetRootCmd args .Printf .Fatalf .aborted], .aborted⟩ := by
        simp [main, mainBody, bind, Launcher.andThen, sliceArgs, sliceFrom, call, emit, halt,
          Launcher.finish, h1]
      rw [run_eq]
      exact MainShape.buildAborted p args h1
    | returned root =>
      cases h2 : K.CobraCommand with
      | aborted =>
        have run_eq : main K (p :: args) =
            ⟨[.GetRootCmd args .Printf .Fatalf (.returned root), .CobraCommand .aborted],
              .aborted⟩ := by
          simp [main, mainBody, bind, Launcher.andThen, sliceArgs, sliceFrom, call, emit, halt,
            Launcher.finish, h1, h2]
        rw [run_eq]
        exact MainShape.factoryAborted p args root h1 h2
      | returned v =>
        cases h3 : K.AddCommand root v with
        | aborted =>
          have run_eq : main K (p :: args) =
              ⟨[.GetRootCmd args .Printf .Fatalf (.returned root), .CobraCommand (.returned v),
                .AddCommand root v .aborted], .aborted⟩ := by
            simp [main, mainBody, bind, Launcher.andThen, sliceArgs, sliceFrom, call, emit, halt,
              Launcher.finish, h1, h2, h3]
          rw [run_eq]
          exact MainShape.registerAborted p args root v h1 h2 h3
        | returned root1 =>
          cases h4 : K.Execute root1 with
          | aborted =>
            have run_eq : main K (p :: args) =
                ⟨[.GetRootCmd args .Printf .Fatalf (.returned root), .CobraCommand (.returned v),
                  .AddCommand root v (.returned root1), .Execute root1 .aborted], .aborted⟩ := by
              simp [main, mainBody, bind, Launcher.andThen, sliceArgs, sliceFrom, call, emit,
                halt, Launcher.finish, h1, h2, h3, h4]
            rw [run_eq]
            exact MainShape.executeAborted p args root v root1 h1 h2 h3 h4
          | returned err =>
            cases err with
            | none =>
              have run_eq : main K (p :: args) =
                  ⟨[.GetRootCmd args .Printf .Fatalf (.returned root), .CobraCommand (.returned v),
                    .AddCommand root v (.returned root1), .Execute root1 (.returned none)],
                    .returned⟩ := by
                simp [main, mainBody, bind, Launcher.andThen, sliceArgs, sliceFrom, call, emit,
                  halt, Launcher.finish, h1, h2, h3, h4, pure]
              rw [run_eq]
              exact MainShape.success p args root v root1 h1 h2 h3 h4
            | some e =>
              have run_eq : main K (p :: args) =
                  ⟨[.GetRootCmd args .Printf .Fatalf (.returned root), .CobraCommand (.returned v),
                    .AddCommand root v (.returned root1), .Execute root1 (.returned (some e)),
                    .Exit (-1)], .exited (-1)⟩ := by
                simp [main, mainBody, bind, Launcher.andThen, sliceArgs, sliceFrom, call, emit,
                  halt, osExit, Launcher.finish, h1, h2, h3, h4]
              rw [run_eq]
              exact MainShape.failure p args root v root1 e h1 h2 h3 h4

/-- The run of `main` with the collaborators of the spec. -/
theorem spec_run (tree : List String → Command) (version : Command) (p : String)
    (args : List String) :
    main (specCollaborators tree version) (p :: args) =
      ⟨[.GetRootCmd args .Printf .Fatalf (.returned (specGetRootCmd tree args)),
        .CobraCommand (.returned version),
        .AddCommand (specGetRootCmd tree args) version
          (.returned ((specGetRootCmd tree args).AddCommand version)),
        .Execute ((specGetRootCmd tree args).AddCommand version)
          (.returned ((specGetRootCmd tree args).AddCommand version).Execute)] ++
        (match ((specGetRootCmd tree args).AddCommand version).Execute with
          | some _ => [.Exit (-1)]
          | none => []),
       match ((specGetRootCmd tree args).AddCommand version).Execute with
          | some _ => .exited (-1)
          | none => .returned⟩ := by
  cases h : ((specGetRootCmd tree args).AddCommand version).Execute <;>
    simp [main, mainBody, bind, Launcher.andThen, sliceArgs, sliceFrom, call, emit, halt, osExit,
      Launcher.finish, specCollaborators, pure, h]

/-- C1: in every run of `main` in which `rootCmd.Execute()` returned a non-nil
error, the launcher requests termination exactly once, with a non-zero status,
the run ends by that request, the status the parent observes is not 0, and no
termination with status 0 is requested. -/
theorem failure_requests_nonzero_exit {Cmd Err : Type} (K : Collaborators Cmd Err)
    (osArgs : List String) (root : Cmd) (e : Err)
    (h : Event.Execute root (.returned (some e)) ∈ (main K osArgs).trace) :
    (∃ c : Int, c ≠ 0 ∧ exitCodes (main K osArgs).trace = [c] ∧
      (main K osArgs).outcome = .exited c) ∧
    (main K osArgs).status ≠ some 0 ∧
    (0 : Int) ∉ exitCodes (main K osArgs).trace := by
  have hs := main_shape K osArgs
  generalize main K osArgs = r at hs h
  cases hs <;> simp_all [exitCodes, Run.status, waitStatus]

/-- A failing run of the test double satisfies C1. -/
theorem failure_requests_nonzero_exit_witness :
    Event.Execute ["adapter", "template", "version"] (.returned (some "boom")) ∈
        (main (stub true) ["mixgen", "nope"]).trace ∧
      ((∃ c : Int, c ≠ 0 ∧ exitCodes (main (stub true) ["mixgen", "nope"]).trace = [c] ∧
        (main (stub true) ["mixgen", "nope"]).outcome = .exited c) ∧
      (main (stub true) ["mixgen", "nope"]).status ≠ some 0 ∧
      (0 : Int) ∉ exitCodes (main (stub true) ["mixgen", "nope"]).trace) :=
  ⟨by decide, failure_requests_nonzero_exit (stub true) ["mixgen", "nope"]
    ["adapter", "template", "version"] "boom" (by decide)⟩

/-- C2: in every run of `main` in which the root command was built and
`rootCmd.Execute()` returned nil, `main` makes no termination request, returns
normally, and the process status is 0. -/
theorem success_returns_without_exit {Cmd Err : Type} (K : Collaborators Cmd Err)
    (osArgs : List String) (root : Cmd)
    (h : Event.Execute root (.returned none) ∈ (main K osArgs).trace) :
    exitCodes (main K osArgs).trace = [] ∧
    (main K osArgs).outcome = .returned ∧
    (main K osArgs).status = some 0 := by
  have hs := main_shape K osArgs
  generalize main K osArgs = r at hs h
  cases hs <;> simp_all [exitCodes, Run.status]

/-- A succeeding run of the test double satisfies C2. -/
theorem success_returns_without_exit_witness :
    Event.Execute ["adapter", "template", "version"] (.returned none) ∈
        (main (stub false) ["mixgen", "version"]).trace ∧
      (exitCodes (main (stub false) ["mixgen", "version"]).trace = [] ∧
      (main (stub false) ["mixgen", "version"]).outcome = .returned ∧
      (main (stub false) ["mixgen", "version"]).status = some 0) :=
  ⟨by decide, success_returns_without_exit (stub false) ["mixgen", "version"]
    ["adapter", "template", "version"] (by decide)⟩

/-- C3: the status requested on failure does not depend on the error: any two
runs in which `Execute` returned non-nil errors, whatever the errors, the
collaborators and the argument vectors, request one and the same status and end
the same way. -/
theorem failure_status_is_fixed {Cmd1 Err1 Cmd2 Err2 : Type}
    (K1 : Collaborators Cmd1 Err1) (K2 : Collaborators Cmd2 Err2)
    (osArgs1 osArgs2 : List String) (root1 : Cmd1) (root2 : Cmd2) (e1 : Err1) (e2 : Err2)
    (h1 : Event.Execute root1 (.returned (some e1)) ∈ (main K1 osArgs1).trace)
    (h2 : Event.Execute root2 (.returned (some e2)) ∈ (main K2 osArgs2).trace) :
    (∃ c : Int, exitCodes (main K1 osArgs1).trace = [c] ∧
      exitCodes (main K2 osArgs2).trace = [c]) ∧
    (main K1 osArgs1).outcome = (main K2 osArgs2).outcome ∧
    (main K1 osArgs1).status = (main K2 osArgs2).status := by
  have hs1 := main_shape K1 osArgs1
  have hs2 := main_shape K2 osArgs2
  generalize main K1 osArgs1 = r1 at hs1 h1
  generalize main K2 osArgs2 = r2 at hs2 h2
  cases hs1 <;> simp_all [exitCodes, Run.status]
  cases hs2 <;> simp_all [exitCodes, Run.status]

/-- Two failing runs with errors of different types satisfy C3. -/
theorem failure_status_is_fixed_witness :
    (Event.Execute ["adapter", "template", "version"] (.returned (some "boom")) ∈
        (main (stub true) ["mixgen", "nope"]).trace ∧
      Event.Execute 4 (.returned (some 44)) ∈ (main stubCode ["mixgen", "a", "b", "c"]).trace) ∧
    ((∃ c : Int, exitCodes (main (stub true) ["mixgen", "nope"]).trace = [c] ∧
        exitCodes (main stubCode ["mixgen", "a", "b", "c"]).trace = [c]) ∧
      (main (stub true) ["mixgen", "nope"]).outcome =
        (main stubCode ["mixgen", "a", "b", "c"]).outcome ∧
      (main (stub true) ["mixgen", "nope"]).status =
        (main stubCode ["mixgen", "a", "b", "c"]).status) :=
  ⟨⟨by decide, by decide⟩,
    failure_status_is_fixed (stub true) stubCode ["mixgen", "nope"] ["mixgen", "a", "b", "c"]
      ["adapter", "template", "version"] 4 "boom" 44 (by decide) (by decide)⟩

/-- C10: the status the launcher requests when `Execute` returned a non-nil
error is the integer -1, and the 8-bit status the parent observes for it is
(-1) mod 2^8 = 255, which is not 0. -/
theorem failure_status_is_minus_one {Cmd Err : Type} (K : Collaborators Cmd Err)
    (osArgs : List String) (root : Cmd) (e : Err)
    (h : Event.Execute root (.returned (some e)) ∈ (main K osArgs).trace) :
    exitCodes (main K osArgs).trace = [-1] ∧
    (main K osArgs).outcome = .exited (-1) ∧
    waitStatus (-1) = 255 ∧
    (main K osArgs).status = some 255 ∧
    (255 : Int) ≠ 0 := by
  have hw : waitStatus (-1) = 255 := by decide
  have hs := main_shape K osArgs
  generalize main K osArgs = r at hs h
  cases hs <;> simp_all [exitCodes, Run.status]

/-- A failing run of the numeric test double satisfies C10. -/
theorem failure_status_is_minus_one_witness :
    Event.Execute 4 (.returned (some 44)) ∈ (main stubCode ["mixgen", "a", "b", "c"]).trace ∧
      (exitCodes (main stubCode ["mixgen", "a", "b", "c"]).trace = [-1] ∧
      (main stubCode ["mixgen", "a", "b", "c"]).outcome = .exited (-1) ∧
      waitStatus (-1) = 255 ∧
      (main stubCode ["mixgen", "a", "b", "c"]).status = some 255 ∧
      (255 : Int) ≠ 0) :=
  ⟨by decide, failure_status_is_minus_one stubCode ["mixgen", "a", "b", "c"] 4 44 (by decide)⟩

/-- C7: for every `os.Args` of length n >= 1 the first step of the run is the
call of `GetRootCmd`; the argument sequence it receives has length n-1 and its
i-th element is `os.Args[i+1]` for every i (nothing added, dropped or
reordered), the output functions it receives are `shared.Printf` and
`shared.Fatalf`, and every `GetRootCmd` call of the run receives exactly
these. -/
theorem builder_receives_args_without_program_name {Cmd Err : Type}
    (K : Collaborators Cmd Err) (osArgs : List String) (hlen : 1 ≤ osArgs.length) :
    ∃ args : List String,
      (main K osArgs).trace.head? =
        some (.GetRootCmd args .Printf .Fatalf (K.GetRootCmd args .Printf .Fatalf)) ∧
      args.length = osArgs.length - 1 ∧
      (∀ i : Nat, args[i]? = osArgs[i + 1]?) ∧
      (∀ a pf ff res, Event.GetRootCmd a pf ff res ∈ (main K osArgs).trace →
        a = args ∧ pf = .Printf ∧ ff = .Fatalf) := by
  have hs := main_shape K osArgs
  generalize main K osArgs = r at hs
  cases hs with
  | noArgs => simp at hlen
  | buildAborted p args h1 => exact ⟨args, by simp [h1]; intros; simp_all⟩
  | factoryAborted p args root h1 h2 => exact ⟨args, by simp [h1]; intros; simp_all⟩
  | registerAborted p args root v h1 h2 h3 => exact ⟨args, by simp [h1]; intros; simp_all⟩
  | executeAborted p args root v root1 h1 h2 h3 h4 => exact ⟨args, by simp [h1]; intros; simp_all⟩
  | success p args root v root1 h1 h2 h3 h4 => exact ⟨args, by simp [h1]; intros; simp_all⟩
  | failure p args root v root1 e h1 h2 h3 h4 => exact ⟨args, by simp [h1]; intros; simp_all⟩

/-- A run with three arguments after the program name satisfies C7. -/
theorem builder_receives_args_without_program_name_witness :
    1 ≤ ["mixgen", "a", "b", "c"].length ∧
    ∃ args : List String,
      (main stubCode ["mixgen", "a", "b", "c"]).trace.head? =
        some (.GetRootCmd args .Printf .Fatalf (stubCode.GetRootCmd args .Printf .Fatalf)) ∧
      args.length = ["mixgen", "a", "b", "c"].length - 1 ∧
      (∀ i : Nat, args[i]? = ["mixgen", "a", "b", "c"][i + 1]?) ∧
      (∀ a pf ff res, Event.GetRootCmd a pf ff res ∈ (main stubCode ["mixgen", "a", "b", "c"]).trace →
        a = args ∧ pf = .Printf ∧ ff = .Fatalf) :=
  ⟨by decide, builder_receives_args_without_program_name stubCode ["mixgen", "a", "b", "c"]
    (by decide)⟩

/-- C6, as stated, fails for the empty argument vector: `os.Args[1:]` is out of
range, `main` panics before the builder is called (here with a builder that
always returns), and the process ends with the status of a Go panic. -/
theorem build_step_panics_without_program_name :
    sliceFrom ([] : List String) 1 = none ∧
    buildCompleted (main (stub false) []) = false ∧
    (main (stub false) []).trace = [] ∧
    (main (stub false) []).outcome = .panicked ∧
    (main (stub false) []).status = some 2 := by
  decide

/-- C6, amended: for every `os.Args` that holds at least the program name
(vectors with malformed flags included) the step
`rootCmd := cmd.GetRootCmd(os.Args[1:], ...)` brings no panic and no process
termination, an argument error being reported only later by `Execute`.
Whatever the collaborators do: the slice expression `os.Args[1:]` does not
panic, the builder is called first, with `os.Args[1:]`, `main` itself never
panics, and the step is completed exactly when the builder call returns.  With
the builder of the spec: the call returns, no callee ends the run, the run
goes on to `Execute` on the registered root, and the run fails exactly when
`Execute` reports an error. -/
theorem build_step_completes {Cmd Err : Type} (K : Collaborators Cmd Err)
    (tree : List String → Command) (version : Command)
    (osArgs : List String) (hlen : 1 ≤ osArgs.length) :
    (sliceFrom osArgs 1 = some (osArgs.drop 1) ∧
      (main K osArgs).trace.head? =
        some (.GetRootCmd (osArgs.drop 1) .Printf .Fatalf
          (K.GetRootCmd (osArgs.drop 1) .Printf .Fatalf)) ∧
      (main K osArgs).outcome ≠ .panicked ∧
      (buildCompleted (main K osArgs) = true ↔
        ∃ root, K.GetRootCmd (osArgs.drop 1) .Printf .Fatalf = .returned root)) ∧
    ((main (specCollaborators tree version) osArgs).trace.head? =
        some (.GetRootCmd (osArgs.drop 1) .Printf .Fatalf
          (.returned (specGetRootCmd tree (osArgs.drop 1)))) ∧
      buildCompleted (main (specCollaborators tree version) osArgs) = true ∧
      (main (specCollaborators tree version) osArgs).outcome ≠ .panicked ∧
      (main (specCollaborators tree version) osArgs).outcome ≠ .aborted ∧
      Event.Execute ((specGetRootCmd tree (osArgs.drop 1)).AddCommand version)
          (.returned ((specGetRootCmd tree (osArgs.drop 1)).AddCommand version).Execute) ∈
        (main (specCollaborators tree version) osArgs).trace ∧
      ((main (specCollaborators tree version) osArgs).outcome = .returned ↔
        ((specGetRootCmd tree (osArgs.drop 1)).AddCommand version).Execute = none)) := by
  rcases osArgs with _ | ⟨p, args⟩
  · simp at hlen
  · refine ⟨?_, ?_⟩
    · have hs := main_shape K (p :: args)
      have hslice : sliceFrom (p :: args) 1 = some args := by simp [sliceFrom]
      generalize main K (p :: args) = r at hs
      cases hs <;> simp_all [buildCompleted]
    · rw [spec_run]
      cases hx : ((specGetRootCmd tree args).AddCommand version).Execute <;>
        simp [buildCompleted, hx]

/-- A run with a malformed flag after the program name completes the build step,
on the test double and on the sample tree. -/
theorem build_step_completes_witness :
    1 ≤ ["mixgen", "--bogus"].length ∧
    (main (stub true) ["mixgen", "--bogus"]).outcome ≠ .panicked ∧
    buildCompleted (main (specCollaborators sampleTree (leaf "version"))
      ["mixgen", "--bogus"]) = true ∧
    (main (specCollaborators sampleTree (leaf "version")) ["mixgen", "--bogus"]).outcome ≠
      .aborted :=
  ⟨by decide,
    (build_step_completes (stub true) sampleTree (leaf "version") ["mixgen", "--bogus"]
      (by decide)).1.2.2.1,
    (build_step_completes (stub true) sampleTree (leaf "version") ["mixgen", "--bogus"]
      (by decide)).2.2.1,
    (build_step_completes (stub true) sampleTree (leaf "version") ["mixgen", "--bogus"]
      (by decide)).2.2.2.2.1⟩

/-- Each of the seven shapes keeps the order of the steps. -/
theorem stagesIncrease_of_shape {Cmd Err : Type} {K : Collaborators Cmd Err}
    {osArgs : List String} {r : Run Cmd Err} (hs : MainShape K osArgs r) :
    stagesIncrease r.trace := by
  cases hs <;> simp [stagesIncrease, Event.stage]

/-- In each of the seven shapes every step works on the result of the one before. -/
theorem wellLinked_of_shape {Cmd Err : Type} {K : Collaborators Cmd Err}
    {osArgs : List String} {r : Run Cmd Err} (hs : MainShape K osArgs r) :
    wellLinked r.trace := by
  cases hs <;> simp [wellLinked] <;> intros <;> simp_all

/-- Each of the seven shapes holds at most one termination request. -/
theorem exitCodes_length_of_shape {Cmd Err : Type} {K : Collaborators Cmd Err}
    {osArgs : List String} {r : Run Cmd Err} (hs : MainShape K osArgs r) :
    (exitCodes r.trace).length ≤ 1 := by
  cases hs <;> simp [exitCodes]

/-- In each of the seven shapes a termination request directly follows a failed
`Execute` and ends the trace. -/
theorem exitOnlyAfterFailure_of_shape {Cmd Err : Type} {K : Collaborators Cmd Err}
    {osArgs : List String} {r : Run Cmd Err} (hs : MainShape K osArgs r) :
    exitOnlyAfterFailure r.trace := by
  cases hs with
  | failure p args root v root1 e h1 h2 h3 h4 =>
    intro c hc
    have hc1 : c = -1 := by simpa [exitCodes] using hc
    subst hc1
    exact ⟨[.GetRootCmd args .Printf .Fatalf (.returned root), .CobraCommand (.returned v),
      .AddCommand root v (.returned root1)], root1, e, rfl⟩
  | _ => intro c hc; simp [exitCodes] at hc

/-- A run that ends by the return of `main` or by its own `os.Exit` has built,
registered and executed exactly once. -/
theorem counts_of_shape {Cmd Err : Type} {K : Collaborators Cmd Err}
    {osArgs : List String} {r : Run Cmd Err} (hs : MainShape K osArgs r)
    (hp : r.outcome ≠ .panicked) (ha : r.outcome ≠ .aborted) :
    countStage 0 r.trace = 1 ∧ countStage 2 r.trace = 1 ∧ countStage 3 r.trace = 1 := by
  cases hs <;> simp_all [countStage, Event.stage]

/-- C9, as stated, fails for the empty argument vector: the run ends by the
panic of `os.Args[1:]` and the root command is never built. -/
theorem no_build_without_program_name :
    countStage 0 (main (stub false) []).trace = 0 ∧ ¬ LinearRun (main (stub false) []) := by
  refine ⟨by decide, ?_⟩
  intro h
  have h0 : countStage 0 (main (stub false) []).trace = 1 := h.1
  revert h0
  decide

/-- C9, amended: in every run of `main` the steps follow the order build,
version factory, registration, execution, termination request, none is
repeated, each works on the result of the one before (`Execute` is called on
the root as the registration of the version subcommand left it), and a
termination request is made at most once, as the last step, directly after
`Execute` returned a failure.  In every run with a non-empty `os.Args` in which
no callee panics or ends the process, build, registration and execution happen
exactly once each. -/
theorem run_is_linear {Cmd Err : Type} (K : Collaborators Cmd Err) (osArgs : List String) :
    (stagesIncrease (main K osArgs).trace ∧ wellLinked (main K osArgs).trace ∧
      (exitCodes (main K osArgs).trace).length ≤ 1 ∧
      exitOnlyAfterFailure (main K osArgs).trace) ∧
    (1 ≤ osArgs.length → (main K osArgs).outcome ≠ .aborted → LinearRun (main K osArgs)) := by
  have hs := main_shape K osArgs
  refine ⟨⟨stagesIncrease_of_shape hs, wellLinked_of_shape hs, exitCodes_length_of_shape hs,
    exitOnlyAfterFailure_of_shape hs⟩, ?_⟩
  intro hlen ha
  have hp : (main K osArgs).outcome ≠ .panicked := by
    generalize main K osArgs = r at hs
    cases hs <;> simp_all
  obtain ⟨c0, c2, c3⟩ := counts_of_shape hs hp ha
  exact ⟨c0, c2, c3, stagesIncrease_of_shape hs, wellLinked_of_shape hs,
    exitCodes_length_of_shape hs, exitOnlyAfterFailure_of_shape hs⟩

/-- A failing run of the test double is a linear run. -/
theorem run_is_linear_witness :
    (1 ≤ ["mixgen", "nope"].length ∧ (main (stub true) ["mixgen", "nope"]).outcome ≠ .aborted) ∧
    LinearRun (main (stub true) ["mixgen", "nope"]) :=
  ⟨⟨by decide, by decide⟩,
    (run_is_linear (stub true) ["mixgen", "nope"]).2 (by decide) (by decide)⟩

/-- C4: registering the version subcommand does not remove or shadow a
subcommand of the root: every name that resolves to a child of the root before
`AddCommand` resolves to the same child afterwards, whatever the root holds,
a child named like the version subcommand included. -/
theorem registration_keeps_resolution (root version : Command) (tok : String) (c : Command)
    (h : root.resolve tok = some c) :
    (root.AddCommand version).resolve tok = some c := by
  unfold Command.resolve at h
  simp [Command.resolve, Command.AddCommand, List.find?_append, h]

/-- On the sample tree, whose root owns a "version" child, the name "version"
resolves to that same child after the version subcommand is registered. -/
theorem registration_keeps_resolution_witness :
    (sampleTree []).resolve "version" =
        some { name := "version", args := [], run := fun _ => some "old", children := [] } ∧
      ((sampleTree []).AddCommand (leaf "version")).resolve "version" =
        some { name := "version", args := [], run := fun _ => some "old", children := [] } :=
  ⟨rfl, registration_keeps_resolution (sampleTree []) (leaf "version") "version" _ rfl⟩

/-- C5: registering the version subcommand is purely additive: the child set
afterwards is the child set before followed by the version subcommand, every
child keeps its place and is unaltered, no other field of the root changes;
and in a run of `main` the root that `Execute` receives is the built root with
exactly this one registration applied. -/
theorem registration_is_additive (tree : List String → Command) (root version : Command)
    (p : String) (args : List String) :
    ((root.AddCommand version).children = root.children ++ [version] ∧
      (root.AddCommand version).children.length = root.children.length + 1 ∧
      (∀ (i : Nat) (c : Command), root.children[i]? = some c →
        (root.AddCommand version).children[i]? = some c) ∧
      (∀ c : Command, c ∈ (root.AddCommand version).children ↔ c ∈ root.children ∨ c = version) ∧
      (root.AddCommand version).name = root.name ∧
      (root.AddCommand version).args = root.args ∧
      (root.AddCommand version).run = root.run) ∧
    (∀ (root1 : Command) (res : Call (Option String)),
      Event.Execute root1 res ∈ (main (specCollaborators tree version) (p :: args)).trace →
        root1.children = (specGetRootCmd tree args).children ++ [version] ∧
        root1.name = (specGetRootCmd tree args).name ∧
        root1.args = (specGetRootCmd tree args).args ∧
        root1.run = (specGetRootCmd tree args).run) := by
  refine ⟨⟨rfl, by simp [Command.AddCommand], ?_, by simp [Command.AddCommand], rfl, rfl, rfl⟩, ?_⟩
  · intro i c hi
    have hlt : i < root.children.length := by
      rcases Nat.lt_or_ge i root.children.length with hlt | hge
      · exact hlt
      · rw [List.getElem?_eq_none hge] at hi
        cases hi
    simp [Command.AddCommand, List.getElem?_append_left hlt, hi]
  · intro root1 res hmem
    rw [spec_run] at hmem
    cases hx : ((specGetRootCmd tree args).AddCommand version).Execute <;>
      simp [hx] at hmem <;> simp [hmem.1, Command.AddCommand]

/-- On the sample tree the child names after registration are the three names
from before followed by the new one. -/
theorem registration_is_additive_witness :
    ((sampleTree []).AddCommand (leaf "version")).children.map Command.name =
      ["adapter", "template", "version", "version"] :=
  (congrArg (List.map Command.name)
    (registration_is_additive sampleTree (sampleTree []) (leaf "version") "mixgen" []).1.1).trans
    rfl

/-- C8: for every argument vector whose first token does not resolve to a child
of the root after the version subcommand has been registered, `Execute` reports
failure and the launcher exits with the fixed status -1 (255 for the
parent). -/
theorem unknown_subcommand_exits (tree : List String → Command) (version : Command)
    (p tok : String) (rest : List String)
    (h : ((specGetRootCmd tree (tok :: rest)).AddCommand version).resolve tok = none) :
    (∃ msg, Event.Execute ((specGetRootCmd tree (tok :: rest)).AddCommand version)
        (.returned (some msg)) ∈
      (main (specCollaborators tree version) (p :: tok :: rest)).trace) ∧
    exitCodes (main (specCollaborators tree version) (p :: tok :: rest)).trace = [-1] ∧
    (main (specCollaborators tree version) (p :: tok :: rest)).outcome = .exited (-1) ∧
    (main (specCollaborators tree version) (p :: tok :: rest)).status = some 255 := by
  have hargs : ((specGetRootCmd tree (tok :: rest)).AddCommand version).args = tok :: rest := rfl
  have hx : ((specGetRootCmd tree (tok :: rest)).AddCommand version).Execute =
      some ("unknown command " ++ tok) := by
    unfold Command.Execute
    rw [hargs]
    simp only [h]
  have hw : waitStatus (-1) = 255 := by decide
  rw [spec_run]
  simp [hx, exitCodes, Run.status, hw]

/-- On the sample tree the unknown subcommand "nope" ends the run with
`os.Exit(-1)`. -/
theorem unknown_subcommand_exits_witness :
    ((specGetRootCmd sampleTree ["nope", "x"]).AddCommand (leaf "version")).resolve "nope" = none ∧
    ((∃ msg, Event.Execute ((specGetRootCmd sampleTree ["nope", "x"]).AddCommand (leaf "version"))
        (.returned (some msg)) ∈
      (main (specCollaborators sampleTree (leaf "version")) ["mixgen", "nope", "x"]).trace) ∧
    exitCodes (main (specCollaborators sampleTree (leaf "version")) ["mixgen", "nope", "x"]).trace =
      [-1] ∧
    (main (specCollaborators sampleTree (leaf "version")) ["mixgen", "nope", "x"]).outcome =
      .exited (-1) ∧
    (main (specCollaborators sampleTree (leaf "version")) ["mixgen", "nope", "x"]).status =
      some 255) :=
  ⟨rfl, unknown_subcommand_exits sampleTree (leaf "version") "mixgen" "nope" ["x"] rfl⟩

end Mixgen
